import Mathlib

/-!
Shallow embedding of `script_tumblr.py`, a Tumblr-RSS-to-Telegram image bridge.

The script polls RSS feeds, extracts image URLs from entry descriptions,
and sends previously-unseen images to a Telegram chat, recording each
successful send in an append-only file used as a deduplication store.

Modelling choices:
* Python strings are Lean `String`s; `str.lower`, `str.strip` and
  `str.endswith` are modelled character-wise over `String.data`.
* Files are modelled by their list of lines plus an existence flag.
* The HTML parse of an entry description is modelled by the ordered list of
  tags the parser yields (`BeautifulSoup(...).find_all` is a filter on it).
* The network is an oracle: each entered per-image send loop consumes one
  `ImgBehavior` (a finite list of rate-limit delays followed by a terminal
  outcome) in the big-step model; the small-step loop machine `loopStep`
  instead consumes an unbounded oracle `net : Nat → SendResult`, which is
  what the unbounded-retry claim is stated against.
* Observable actions (skips, send attempts, file appends, set inserts,
  sleeps, error logs) are recorded in a ghost event trace.
-/

/-- Character-wise model of Python `str.lower()`. -/
def lowerStr (s : String) : String := String.mk (s.data.map Char.toLower)

/-- Character-wise model of Python `s.endswith(t)`. -/
def endsWithStr (s t : String) : Bool := List.isSuffixOf t.data s.data

/-- Character-wise model of Python `str.strip()`. -/
def trimStr (s : String) : String :=
  String.mk (((s.data.dropWhile Char.isWhitespace).reverse.dropWhile Char.isWhitespace).reverse)

def extPng : String := ".png"

def extJpg : String := ".jpg"

def extJpeg : String := ".jpeg"

def extGif : String := ".gif"

def srcKey : String := "src"

def hrefKey : String := "href"

/-! ## Image extraction (`extract_images`, script lines 89-105) -/

/-- The tag names `extract_images` distinguishes; every other element the
parser yields is `other`. -/
inductive TagName
  | img
  | a
  | other
deriving DecidableEq

/-- One HTML tag as yielded by the parser: its name and its attributes. -/
structure Tag where
  name : TagName
  attrs : List (String × String)
deriving DecidableEq

/-- One feed entry; `description` is the parsed tag stream of its HTML
description, `none` when the description is absent or empty (Python's
`if not description: continue`). -/
structure Entry where
  description : Option (List Tag)
deriving DecidableEq

/-- A parsed feed document: its ordered list of entries. -/
structure Feed where
  entries : List Entry
deriving DecidableEq

/-- `href.lower().endswith((".png", ".jpg", ".jpeg", ".gif"))`. -/
def isImageHref (href : String) : Bool :=
  endsWithStr (lowerStr href) extPng || endsWithStr (lowerStr href) extJpg ||
    endsWithStr (lowerStr href) extJpeg || endsWithStr (lowerStr href) extGif

/-- `soup.find_all(["img", "a"])`: the tags named `img` or `a`, in the order
the parser yields them. -/
def find_all_img_a (tags : List Tag) : List Tag :=
  tags.filter (fun t => t.name = TagName.img ∨ t.name = TagName.a)

/-- The URLs one tag contributes: an `img` tag emits its `src` if present;
an `a` tag emits its `href` if present and `isImageHref` holds of it. -/
def tagImages (t : Tag) : List String :=
  if t.name = TagName.img then
    match t.attrs.lookup srcKey with
    | some v => [v]
    | none => []
  else if t.name = TagName.a then
    match t.attrs.lookup hrefKey with
    | some href => if isImageHref href then [href] else []
    | none => []
  else []

/-- The inner `for tag in soup.find_all(...)` loop body, flattened. -/
def emitImages : List Tag → List String
  | [] => []
  | t :: ts => tagImages t ++ emitImages ts

/-- All image URLs found in one entry description. -/
def entryImages (tags : List Tag) : List String :=
  emitImages (find_all_img_a tags)

/-- The outer `for entry in feed.entries` loop, flattened. -/
def extractEntries : List Entry → List String
  | [] => []
  | e :: es =>
    (match e.description with
      | some tags => entryImages tags
      | none => []) ++ extractEntries es

/-- `extract_images(feed)`: image URLs of all entries, in entry order and,
within an entry, in the order the parser yields the tags. -/
def extract_images (f : Feed) : List String := extractEntries f.entries

/-! ## Deduplication store (script lines 108-118) -/

/-- `load_published_images(path)`: empty set if the file does not exist,
otherwise one element per non-blank stripped line.  The Python `set` is
modelled as a list; all statements about it are membership statements. -/
def load_published_images (fileExists : Bool) (lines : List String) : List String :=
  if fileExists then (lines.map trimStr).filter (fun l => l != "") else []

/-- `append_published_image(path, url)` at the file level: the write of
`url + "\n"` appends exactly one line holding `url` (the URL contains no
newline).  The `mkdir(parents=True)` side effect is tracked separately in
the delivery state (`dirExists`). -/
def append_published_image (lines : List String) (url : String) : List String :=
  lines ++ [url]

/-! ## Delivery engine (`send_images`, script lines 121-149) -/

/-- Observable actions of the delivery loop, in program order. -/
inductive Event
  | skip (u : String)
  | attempt (u : String)
  | sent (u : String)
  | fileAppend (u : String)
  | setAdd (u : String)
  | sleepPace (d : Nat)
  | sleepRetry (n : Nat)
  | logError (u : String)
deriving DecidableEq

/-- Outcome of one `bot.send_photo` call. -/
inductive SendResult
  | success
  | retryAfter (n : Nat)
  | otherError
deriving DecidableEq

/-- Terminal outcome of one per-image while-loop. -/
inductive Terminal
  | success
  | error
deriving DecidableEq

/-- Network behaviour for one entered per-image while-loop: the rate-limit
`retry_after` delays returned before the loop terminates, then the terminal
outcome (a successful send or a non-rate-limit `TelegramError`). -/
structure ImgBehavior where
  retries : List Nat
  final : Terminal
deriving DecidableEq

/-- Delivery-engine state: `k` counts the per-image send loops entered so
far (it indexes the behaviour oracle), `dirExists` whether the dedup file's
parent directory has been created, `file` the lines of the dedup file,
`memSet` the in-memory `published_images` set, `events` the ghost trace. -/
structure DState where
  k : Nat
  dirExists : Bool
  file : List String
  memSet : List String
  events : List Event
deriving DecidableEq

/-- `append_published_image` as it acts on the delivery state: create the
parent directory if needed, then append the URL as a new line. -/
def appendPublishedState (st : DState) (u : String) : DState :=
  { st with
    dirExists := true
    file := append_published_image st.file u
    events := st.events ++ [Event.fileAppend u] }

/-- The `while True:` body of `send_images` for one image `u`, run against
a behaviour `(rs, t)`: each rate-limit answer logs a warning and sleeps for
the server-given delay, then the attempt is retried; on success the URL is
appended to the file, added to the set, and the loop pauses for
`delay` seconds before breaking; on any other `TelegramError` the error is
logged and the loop breaks with the state unchanged. -/
def sendLoop (u : String) (delay : Nat) : List Nat → Terminal → DState → DState
  | [], Terminal.success, st =>
    let st1 := { st with events := st.events ++ [Event.attempt u, Event.sent u] }
    let st2 := appendPublishedState st1 u
    let st3 := { st2 with
      memSet := st2.memSet ++ [u]
      events := st2.events ++ [Event.setAdd u] }
    { st3 with events := st3.events ++ [Event.sleepPace delay] }
  | [], Terminal.error, st =>
    { st with events := st.events ++ [Event.attempt u, Event.logError u] }
  | n :: rest, t, st =>
    sendLoop u delay rest t
      { st with events := st.events ++ [Event.attempt u, Event.sleepRetry n] }

/-- `send_images`: for each image URL in order, skip it if it is already in
the in-memory published set, otherwise run the send loop for it (consuming
the next behaviour of the oracle `beh`). -/
def send_images (beh : Nat → ImgBehavior) (delay : Nat) :
    List String → DState → DState
  | [], st => st
  | u :: rest, st =>
    if u ∈ st.memSet then
      send_images beh delay rest { st with events := st.events ++ [Event.skip u] }
    else
      send_images beh delay rest
        (sendLoop u delay (beh st.k).retries (beh st.k).final { st with k := st.k + 1 })

/-! ## Small-step view of one per-image while-loop (for the temporal claim) -/

/-- Status of the per-image loop: still retrying, delivered, or failed. -/
inductive LoopStatus
  | running
  | delivered
  | failed
deriving DecidableEq

/-- State of one per-image `while True:` loop: the number of send attempts
made so far (indexing the network oracle) and the loop status, over the
delivery state. -/
structure LState where
  attempts : Nat
  status : LoopStatus
  st : DState
deriving DecidableEq

/-- One iteration of the `while True:` loop for image `u`: look up the
outcome of the next `bot.send_photo` call in the oracle `net` and act as
the script does.  Terminal states are fixed points. -/
def loopStep (net : Nat → SendResult) (u : String) (delay : Nat) (s : LState) : LState :=
  match s.status with
  | LoopStatus.delivered => s
  | LoopStatus.failed => s
  | LoopStatus.running =>
    match net s.attempts with
    | SendResult.success =>
      { attempts := s.attempts + 1
        status := LoopStatus.delivered
        st := { s.st with
          dirExists := true
          file := append_published_image s.st.file u
          memSet := s.st.memSet ++ [u]
          events := s.st.events ++ [Event.attempt u, Event.sent u,
            Event.fileAppend u, Event.setAdd u, Event.sleepPace delay] } }
    | SendResult.retryAfter n =>
      { attempts := s.attempts + 1
        status := LoopStatus.running
        st := { s.st with
          events := s.st.events ++ [Event.attempt u, Event.sleepRetry n] } }
    | SendResult.otherError =>
      { attempts := s.attempts + 1
        status := LoopStatus.failed
        st := { s.st with
          events := s.st.events ++ [Event.attempt u, Event.logError u] } }

/-! ## Orchestration (`run` and `main`, script lines 152-205) -/

/-- The configuration fields of the script (`Settings` dataclass), with the
file-system paths abstracted away (files live in `RunWorld`). -/
structure Settings where
  bot_token : String
  chat_id : String
  media_caption : String
  delay_between_posts : Nat
deriving DecidableEq

/-- The world a run interacts with: the feed-list file, the published-images
file, the parse result of each feed URL, and the network behaviour oracle. -/
structure RunWorld where
  feedsFileExists : Bool
  feedsFileLines : List String
  pubFileExists : Bool
  pubFileLines : List String
  feeds : String → Feed
  beh : Nat → ImgBehavior

/-- Run-level observable actions. -/
inductive REvent
  | logStart
  | logFeedsMissing
  | logNoFeeds
  | logLoaded
  | fetchFeed (url : String)
  | deliver (e : Event)
  | logDone
deriving DecidableEq

/-- `read_rss_feeds(path)`: `[]` (plus an error log) when the file does not
exist, otherwise the stripped non-blank lines. -/
def read_rss_feeds (fileExists : Bool) (lines : List String) :
    List String × List REvent :=
  if fileExists then ((lines.map trimStr).filter (fun l => l != ""), [])
  else ([], [REvent.logFeedsMissing])

/-- The lines of the published-images file as they stand before the run. -/
def pubLines0 (w : RunWorld) : List String :=
  if w.pubFileExists then w.pubFileLines else []

/-- The `for rss_feed in rss_feeds:` loop of `run`: fetch, extract, deliver,
threading the delivery state through and collecting the trace. -/
def runFeeds (beh : Nat → ImgBehavior) (feeds : String → Feed) (delay : Nat) :
    List String → DState → List REvent × DState
  | [], st => ([], st)
  | f :: fs, st =>
    let st1 := send_images beh delay (extract_images (feeds f)) { st with events := [] }
    let res := runFeeds beh feeds delay fs st1
    (REvent.fetchFeed f :: st1.events.map REvent.deliver ++ res.1, res.2)

def credsErrMsg : String := "Both bot_token and chat_id must be configured."

/-- Result of a run: its trace, its fatal error if any, and the final
content of the published-images file. -/
structure RunResult where
  trace : List REvent
  fatal : Option String
  finalFile : List String
deriving DecidableEq

/-- `run(config_path)` after `read_config`: validate the credentials (the
`ValueError` is raised before any logging, file or network activity), read
the feed list, return early when it is empty, otherwise load the published
set and process every feed in order. -/
def run (s : Settings) (w : RunWorld) : RunResult :=
  if s.bot_token = "" ∨ s.chat_id = "" then
    { trace := [], fatal := some credsErrMsg, finalFile := pubLines0 w }
  else
    let rss := read_rss_feeds w.feedsFileExists w.feedsFileLines
    if rss.1 = [] then
      { trace := [REvent.logStart] ++ rss.2 ++ [REvent.logNoFeeds]
        fatal := none
        finalFile := pubLines0 w }
    else
      let published := load_published_images w.pubFileExists w.pubFileLines
      let st0 : DState :=
        { k := 0, dirExists := true, file := pubLines0 w, memSet := published, events := [] }
      let res := runFeeds w.beh w.feeds s.delay_between_posts rss.1 st0
      { trace := [REvent.logStart] ++ rss.2 ++ [REvent.logLoaded] ++ res.1 ++ [REvent.logDone]
        fatal := none
        finalFile := res.2.file }

/-- `main`: a fatal error raised out of `run` is logged and re-raised, so
the interpreter exits non-zero; normal completion exits 0. -/
def main_exit (s : Settings) (w : RunWorld) : Nat :=
  match (run s w).fatal with
  | some _ => 1
  | none => 0

/-! ## Derived event lists and counting -/

/-- The events of the rate-limit retries of one send loop for image `u`:
one attempt and one server-directed sleep per rate-limit answer. -/
def rlEvs (u : String) : List Nat → List Event
  | [] => []
  | n :: rest => Event.attempt u :: Event.sleepRetry n :: rlEvs u rest

/-- The events of a successful final attempt, in program order: the send,
the file append, the set insert, the pacing sleep. -/
def successEvs (u : String) (delay : Nat) : List Event :=
  [Event.attempt u, Event.sent u, Event.fileAppend u, Event.setAdd u,
   Event.sleepPace delay]

/-- The events of a final attempt that fails with a non-rate-limit error. -/
def errorEvs (u : String) : List Event :=
  [Event.attempt u, Event.logError u]

/-- Number of occurrences of an event in a trace. -/
def countEv (e : Event) : List Event → Nat
  | [] => 0
  | x :: xs => (if x = e then 1 else 0) + countEv e xs

/-! ## Concrete data for the claims -/

/-- An `a` tag carrying just an `href` attribute. -/
def anchorTag (u : String) : Tag :=
  { name := TagName.a, attrs := [(hrefKey, u)] }

/-- Spec-side definition (refinement comparison for C5): the path of a URL,
read as everything before the first query delimiter or fragment delimiter. -/
def specUrlPath (url : String) : String :=
  String.mk (url.data.takeWhile (fun c => !(c == '?' || c == '#')))

/-- Spec-side definition (refinement comparison for C5): the claim
predicates anchor emission on the URL's path ending, case-insensitively,
in one of the four image extensions. -/
def spec_anchor_path_is_image (url : String) : Bool :=
  isImageHref (specUrlPath url)

def ceHref : String := "http://x/img.png?s=1"

def ceFeed : Feed :=
  { entries := [{ description := some [anchorTag ceHref] }] }

def urlC6a : String := "http://x/1.png"

def urlC6b : String := "http://x/2.gif"

def urlC6c : String := "http://x/page.html"

/-- The feed of C6: one entry whose description parses to a `p` tag, an
`img` tag, an image anchor and a non-image anchor, in document order. -/
def docC6 : Feed :=
  { entries := [{ description := some [
      { name := TagName.other, attrs := [] },
      { name := TagName.img, attrs := [(srcKey, urlC6a)] },
      { name := TagName.a, attrs := [(hrefKey, urlC6b)] },
      { name := TagName.a, attrs := [(hrefKey, urlC6c)] }] }] }

def uA : String := "a"

def uB : String := "b"

/-- A network oracle whose every send loop succeeds immediately. -/
def behS : Nat → ImgBehavior := fun _ => { retries := [], final := Terminal.success }

/-- A network oracle whose every send loop is rate-limited once and then
fails with a non-rate-limit error. -/
def behE : Nat → ImgBehavior := fun _ => { retries := [2], final := Terminal.error }

/-- A small-step network oracle that always answers with a rate limit. -/
def netR : Nat → SendResult := fun _ => SendResult.retryAfter 3

/-- The empty delivery state. -/
def st0 : DState :=
  { k := 0, dirExists := false, file := [], memSet := [], events := [] }

/-- A delivery state whose store already holds `uA`. -/
def stA : DState :=
  { k := 0, dirExists := true, file := [uA], memSet := [uA], events := [] }

/-- An idle per-image loop state over the empty delivery state. -/
def ls0 : LState :=
  { attempts := 0, status := LoopStatus.running, st := st0 }

/-- Settings with both credentials present. -/
def settOk : Settings :=
  { bot_token := uA, chat_id := uB, media_caption := "", delay_between_posts := 5 }

/-- Settings with a missing bot token. -/
def settNoTok : Settings :=
  { bot_token := "", chat_id := uB, media_caption := "", delay_between_posts := 5 }

/-- A world whose feed-list file is missing. -/
def worldNoFeeds : RunWorld :=
  { feedsFileExists := false
    feedsFileLines := [uA]
    pubFileExists := true
    pubFileLines := [uB]
    feeds := fun _ => { entries := [] }
    beh := behS }
/-! ## Extraction lemmas -/

lemma emitImages_append (l1 l2 : List Tag) :
    emitImages (l1 ++ l2) = emitImages l1 ++ emitImages l2 := by
  induction l1 with
  | nil => rfl
  | cons t ts ih => simp [emitImages, ih]

lemma entryImages_append (l1 l2 : List Tag) :
    entryImages (l1 ++ l2) = entryImages l1 ++ entryImages l2 := by
  simp [entryImages, find_all_img_a, List.filter_append, emitImages_append]

lemma extractEntries_append (e1 e2 : List Entry) :
    extractEntries (e1 ++ e2) = extractEntries e1 ++ extractEntries e2 := by
  induction e1 with
  | nil => rfl
  | cons e es ih => simp [extractEntries, ih]

lemma entryImages_anchor (u : String) :
    entryImages [anchorTag u] = if isImageHref u then [u] else [] := by
  simp [entryImages, find_all_img_a, anchorTag, emitImages, tagImages, List.lookup]

/-- C5 counterexample: the anchor `href` `http://x/img.png?s=1` has a path
ending in `.png`, so per the claim it must be emitted; the code tests the
whole `href` string (query included) and emits nothing for this feed. -/
theorem anchor_path_c5_ce :
    spec_anchor_path_is_image ceHref = true ∧ extract_images ceFeed = [] := by
  constructor
  · decide
  · decide

/-- C5 amended: an anchor with an `href` attribute is emitted, at its
position, exactly when the full `href` string lowercased ends in one of
`.png`, `.jpg`, `.jpeg`, `.gif` (the check is on the entire URL string,
query and fragment included, not on its path alone). -/
theorem anchor_emit_c5 :
    ∀ (u : String) (pre post : List Tag),
      entryImages (pre ++ anchorTag u :: post)
        = entryImages pre ++ (if isImageHref u then [u] else []) ++ entryImages post := by
  intro u pre post
  have h1 : pre ++ anchorTag u :: post = pre ++ [anchorTag u] ++ post := by simp
  rw [h1, entryImages_append, entryImages_append, entryImages_anchor]

/-- C6: on the spec's example description the extractor returns exactly
`["http://x/1.png", "http://x/2.gif"]` in that order; in general extraction
is compositional over the entry list and over each entry's tag stream, so
emitted URLs follow entry order and, within an entry, parser tag order. -/
theorem extract_order_c6 :
    extract_images docC6 = [urlC6a, urlC6b]
    ∧ (∀ e1 e2 : List Entry,
        extract_images { entries := e1 ++ e2 }
          = extract_images { entries := e1 } ++ extract_images { entries := e2 })
    ∧ (∀ t1 t2 : List Tag, entryImages (t1 ++ t2) = entryImages t1 ++ entryImages t2) := by
  refine ⟨by decide, ?_, ?_⟩
  · intro e1 e2
    simpa [extract_images] using extractEntries_append e1 e2
  · intro t1 t2
    exact entryImages_append t1 t2

/-! ## Delivery-engine lemmas -/

lemma countEv_append (e : Event) (l1 l2 : List Event) :
    countEv e (l1 ++ l2) = countEv e l1 + countEv e l2 := by
  induction l1 with
  | nil => simp [countEv]
  | cons x xs ih => simp [countEv, ih, Nat.add_assoc]

lemma sendLoop_success (u : String) (delay : Nat) (rs : List Nat) (st : DState) :
    sendLoop u delay rs Terminal.success st =
      { st with
        dirExists := true
        file := append_published_image st.file u
        memSet := st.memSet ++ [u]
        events := st.events ++ (rlEvs u rs ++ successEvs u delay) } := by
  induction rs generalizing st with
  | nil =>
    cases st
    simp [sendLoop, appendPublishedState, append_published_image, successEvs, rlEvs]
  | cons n rest ih =>
    rw [sendLoop, ih]
    cases st
    simp [rlEvs]

lemma sendLoop_error (u : String) (delay : Nat) (rs : List Nat) (st : DState) :
    sendLoop u delay rs Terminal.error st =
      { st with events := st.events ++ (rlEvs u rs ++ errorEvs u) } := by
  induction rs generalizing st with
  | nil =>
    cases st
    simp [sendLoop, errorEvs, rlEvs]
  | cons n rest ih =>
    rw [sendLoop, ih]
    cases st
    simp [rlEvs]

lemma send_images_nil (beh : Nat → ImgBehavior) (delay : Nat) (st : DState) :
    send_images beh delay [] st = st := rfl

lemma send_images_cons_mem {u : String} {st : DState} (h : u ∈ st.memSet)
    (beh : Nat → ImgBehavior) (delay : Nat) (rest : List String) :
    send_images beh delay (u :: rest) st
      = send_images beh delay rest { st with events := st.events ++ [Event.skip u] } := by
  rw [send_images, if_pos h]

lemma send_images_cons_notMem {u : String} {st : DState} (h : u ∉ st.memSet)
    (beh : Nat → ImgBehavior) (delay : Nat) (rest : List String) :
    send_images beh delay (u :: rest) st
      = send_images beh delay rest
          (sendLoop u delay (beh st.k).retries (beh st.k).final { st with k := st.k + 1 }) := by
  rw [send_images, if_neg h]

lemma sendLoop_memSet_mono (u : String) (delay : Nat) (rs : List Nat) (t : Terminal)
    (st : DState) {x : String} (hx : x ∈ st.memSet) :
    x ∈ (sendLoop u delay rs t st).memSet := by
  cases t
  · rw [sendLoop_success]
    exact List.mem_append_left _ hx
  · rw [sendLoop_error]
    exact hx

lemma send_images_memSet_mono (beh : Nat → ImgBehavior) (delay : Nat) :
    ∀ (images : List String) (st : DState) {x : String},
      x ∈ st.memSet → x ∈ (send_images beh delay images st).memSet := by
  intro images
  induction images with
  | nil => intro st x hx; exact hx
  | cons v rest ih =>
    intro st x hx
    by_cases hv : v ∈ st.memSet
    · rw [send_images_cons_mem hv]
      exact ih _ hx
    · rw [send_images_cons_notMem hv]
      exact ih _ (sendLoop_memSet_mono v delay _ _ _ hx)

lemma send_images_file_mono (beh : Nat → ImgBehavior) (delay : Nat) :
    ∀ (images : List String) (st : DState),
      ∃ tail, (send_images beh delay images st).file = st.file ++ tail := by
  intro images
  induction images with
  | nil => intro st; exact ⟨[], by simp [send_images_nil]⟩
  | cons v rest ih =>
    intro st
    by_cases hv : v ∈ st.memSet
    · rw [send_images_cons_mem hv]
      exact ih _
    · rw [send_images_cons_notMem hv]
      cases hfin : (beh st.k).final
      · rw [sendLoop_success]
        obtain ⟨tail, htail⟩ := ih _
        refine ⟨[v] ++ tail, ?_⟩
        rw [htail]
        simp [append_published_image]
      · rw [sendLoop_error]
        obtain ⟨tail, htail⟩ := ih _
        exact ⟨tail, by rw [htail]⟩

lemma countEv_rlEvs_attempt_ne {u v : String} (h : v ≠ u) (rs : List Nat) :
    countEv (Event.attempt u) (rlEvs v rs) = 0 := by
  induction rs with
  | nil => rfl
  | cons n rest ih => simp [rlEvs, countEv, ih, h]

lemma countEv_sent_rlEvs (u v : String) (rs : List Nat) :
    countEv (Event.sent u) (rlEvs v rs) = 0 := by
  induction rs with
  | nil => rfl
  | cons n rest ih => simp [rlEvs, countEv, ih]

lemma count_attempt_in_set (beh : Nat → ImgBehavior) (delay : Nat) :
    ∀ (images : List String) (st : DState) (u : String),
      u ∈ st.memSet →
      countEv (Event.attempt u) (send_images beh delay images st).events
        = countEv (Event.attempt u) st.events := by
  intro images
  induction images with
  | nil => intro st u _; rfl
  | cons v rest ih =>
    rintro ⟨k, d, f, m, e⟩ u h
    by_cases hv : v ∈ m
    · rw [send_images_cons_mem hv]
      dsimp only
      rw [ih ⟨k, d, f, m, e ++ [Event.skip v]⟩ u h]
      simp [countEv_append, countEv]
    · have hvu : v ≠ u := fun heq => hv (heq ▸ h)
      rw [send_images_cons_notMem hv]
      dsimp only
      cases hfin : (beh k).final
      · rw [sendLoop_success]
        dsimp only
        rw [ih ⟨k + 1, true, append_published_image f v, m ++ [v],
          e ++ (rlEvs v (beh k).retries ++ successEvs v delay)⟩ u (List.mem_append_left _ h)]
        simp [countEv_append, countEv, successEvs, countEv_rlEvs_attempt_ne hvu, hvu]
      · rw [sendLoop_error]
        dsimp only
        rw [ih ⟨k + 1, d, f, m, e ++ (rlEvs v (beh k).retries ++ errorEvs v)⟩ u h]
        simp [countEv_append, countEv, errorEvs, countEv_rlEvs_attempt_ne hvu, hvu]

lemma count_sent_in_set (beh : Nat → ImgBehavior) (delay : Nat) :
    ∀ (images : List String) (st : DState) (u : String),
      u ∈ st.memSet →
      countEv (Event.sent u) (send_images beh delay images st).events
        = countEv (Event.sent u) st.events := by
  intro images
  induction images with
  | nil => intro st u _; rfl
  | cons v rest ih =>
    rintro ⟨k, d, f, m, e⟩ u h
    by_cases hv : v ∈ m
    · rw [send_images_cons_mem hv]
      dsimp only
      rw [ih ⟨k, d, f, m, e ++ [Event.skip v]⟩ u h]
      simp [countEv_append, countEv]
    · have hvu : v ≠ u := fun heq => hv (heq ▸ h)
      rw [send_images_cons_notMem hv]
      dsimp only
      cases hfin : (beh k).final
      · rw [sendLoop_success]
        dsimp only
        rw [ih ⟨k + 1, true, append_published_image f v, m ++ [v],
          e ++ (rlEvs v (beh k).retries ++ successEvs v delay)⟩ u (List.mem_append_left _ h)]
        simp [countEv_append, countEv, successEvs, countEv_sent_rlEvs, hvu]
      · rw [sendLoop_error]
        dsimp only
        rw [ih ⟨k + 1, d, f, m, e ++ (rlEvs v (beh k).retries ++ errorEvs v)⟩ u h]
        simp [countEv_append, countEv, errorEvs, countEv_sent_rlEvs]

lemma count_sent_bound (beh : Nat → ImgBehavior) (delay : Nat) :
    ∀ (images : List String) (st : DState) (u : String),
      countEv (Event.sent u) (send_images beh delay images st).events
        ≤ countEv (Event.sent u) st.events + (if u ∈ st.memSet then 0 else 1) := by
  intro images
  induction images with
  | nil =>
    intro st u
    rw [send_images_nil]
    exact Nat.le_add_right _ _
  | cons v rest ih =>
    rintro ⟨k, d, f, m, e⟩ u
    by_cases hv : v ∈ m
    · rw [send_images_cons_mem hv]
      dsimp only
      have hb := ih ⟨k, d, f, m, e ++ [Event.skip v]⟩ u
      simpa [countEv_append, countEv] using hb
    · rw [send_images_cons_notMem hv]
      dsimp only
      by_cases hvu : v = u
      · subst hvu
        cases hfin : (beh k).final
        · rw [sendLoop_success]
          dsimp only
          rw [count_sent_in_set beh delay rest
            ⟨k + 1, true, append_published_image f v, m ++ [v],
              e ++ (rlEvs v (beh k).retries ++ successEvs v delay)⟩ v
            (List.mem_append_right _ (List.mem_singleton_self v))]
          simp [countEv_append, countEv, successEvs, countEv_sent_rlEvs, hv]
        · rw [sendLoop_error]
          dsimp only
          have hb := ih ⟨k + 1, d, f, m, e ++ (rlEvs v (beh k).retries ++ errorEvs v)⟩ v
          simpa [countEv_append, countEv, errorEvs, countEv_sent_rlEvs, hv] using hb
      · cases hfin : (beh k).final
        · rw [sendLoop_success]
          dsimp only
          have hb := ih ⟨k + 1, true, append_published_image f v, m ++ [v],
            e ++ (rlEvs v (beh k).retries ++ successEvs v delay)⟩ u
          simpa [countEv_append, countEv, successEvs, countEv_sent_rlEvs, hvu,
            Ne.symm hvu] using hb
        · rw [sendLoop_error]
          dsimp only
          have hb := ih ⟨k + 1, d, f, m, e ++ (rlEvs v (beh k).retries ++ errorEvs v)⟩ u
          simpa [countEv_append, countEv, errorEvs, countEv_sent_rlEvs] using hb

lemma all_mem_skips (beh : Nat → ImgBehavior) (delay : Nat) :
    ∀ (images : List String) (st : DState),
      (∀ u, u ∈ images → u ∈ st.memSet) →
      send_images beh delay images st
        = { st with events := st.events ++ images.map Event.skip } := by
  intro images
  induction images with
  | nil =>
    rintro ⟨k, d, f, m, e⟩ _
    simp [send_images_nil]
  | cons v rest ih =>
    rintro ⟨k, d, f, m, e⟩ h
    have hv : v ∈ m := h v (List.mem_cons_self v rest)
    rw [send_images_cons_mem hv]
    dsimp only
    rw [ih ⟨k, d, f, m, e ++ [Event.skip v]⟩ (fun u hu => h u (List.mem_cons_of_mem v hu))]
    simp

lemma success_coverage (beh : Nat → ImgBehavior) (delay : Nat)
    (hs : ∀ j, (beh j).final = Terminal.success) :
    ∀ (images : List String) (st : DState) (u : String),
      u ∈ images → u ∈ (send_images beh delay images st).memSet := by
  intro images
  induction images with
  | nil => intro st u h; cases h
  | cons v rest ih =>
    intro st u hu
    rcases List.mem_cons.mp hu with rfl | hu'
    · by_cases hv : u ∈ st.memSet
      · rw [send_images_cons_mem hv]
        exact send_images_memSet_mono beh delay rest _ hv
      · rw [send_images_cons_notMem hv, hs st.k, sendLoop_success]
        exact send_images_memSet_mono beh delay rest _
          (List.mem_append_right _ (List.mem_singleton_self u))
    · by_cases hv : v ∈ st.memSet
      · rw [send_images_cons_mem hv]
        exact ih _ u hu'
      · rw [send_images_cons_notMem hv]
        exact ih _ u hu'

lemma countEv_sleepPace_rlEvs (d : Nat) (v : String) (rs : List Nat) :
    countEv (Event.sleepPace d) (rlEvs v rs) = 0 := by
  induction rs with
  | nil => rfl
  | cons n rest ih => simp [rlEvs, countEv, ih]

/-- C1: `send_images` never attempts a URL that is in the published set at
the moment it is reached: a URL in the set at the start of the run is never
attempted at all, a URL is sent at most once per run (it enters the set
right after its first successful send, so every later occurrence is
skipped), and a second run over the same image sequence against the store
left by an all-successful first run only skips — it sends zero images. -/
theorem send_images_dedup_c1 :
    (∀ (beh : Nat → ImgBehavior) (delay : Nat) (images : List String) (st : DState)
        (u : String), u ∈ st.memSet →
        countEv (Event.attempt u) (send_images beh delay images st).events
          = countEv (Event.attempt u) st.events)
    ∧ (∀ (beh : Nat → ImgBehavior) (delay : Nat) (images : List String) (st : DState)
        (u : String), st.events = [] →
        countEv (Event.sent u) (send_images beh delay images st).events ≤ 1)
    ∧ (∀ (beh1 beh2 : Nat → ImgBehavior) (d1 d2 : Nat) (images : List String)
        (st : DState), (∀ j, (beh1 j).final = Terminal.success) →
        (send_images beh2 d2 images
            { send_images beh1 d1 images st with events := [] }).events
          = images.map Event.skip) := by
  refine ⟨count_attempt_in_set, ?_, ?_⟩
  · intro beh delay images st u hev
    have hb := count_sent_bound beh delay images st u
    rw [hev] at hb
    refine le_trans hb ?_
    by_cases hm : u ∈ st.memSet <;> simp [countEv, hm]
  · intro beh1 beh2 d1 d2 images st hs
    have hcov : ∀ u, u ∈ images →
        u ∈ ({ send_images beh1 d1 images st with events := [] } : DState).memSet :=
      fun u hu => success_coverage beh1 d1 hs images st u hu
    rw [all_mem_skips beh2 d2 images _ hcov]
    simp

/-- Witness for C1 at concrete inputs. -/
theorem send_images_dedup_c1_w :
    (uA ∈ stA.memSet ∧
      countEv (Event.attempt uA) (send_images behE 5 [uA, uB] stA).events
        = countEv (Event.attempt uA) stA.events)
    ∧ countEv (Event.sent uA) (send_images behS 7 [uA, uB] st0).events ≤ 1
    ∧ (send_images behS 7 [uA, uB]
        { send_images behS 7 [uA, uB] st0 with events := [] }).events
        = [uA, uB].map Event.skip := by
  refine ⟨⟨by decide, ?_⟩, ?_, ?_⟩
  · exact send_images_dedup_c1.1 behE 5 [uA, uB] stA uA (by decide)
  · exact send_images_dedup_c1.2.1 behS 7 [uA, uB] st0 uA rfl
  · exact send_images_dedup_c1.2.2 behS behS 7 7 [uA, uB] st0 (fun j => rfl)

/-- C3: on a successful send the engine appends the URL to the backing file
(creating the parent directory), then adds it to the in-memory set, then
sleeps for the pacing delay, in exactly that order and before the loop
returns to the next image; the pacing sleep happens only on the success
path — an errored loop and a skip add no pacing sleep. -/
theorem success_order_c3 :
    (∀ (u : String) (delay : Nat) (rs : List Nat) (st : DState),
        sendLoop u delay rs Terminal.success st =
          { st with
            dirExists := true
            file := append_published_image st.file u
            memSet := st.memSet ++ [u]
            events := st.events ++ (rlEvs u rs ++
              [Event.attempt u, Event.sent u, Event.fileAppend u,
                Event.setAdd u, Event.sleepPace delay]) })
    ∧ (∀ (u : String) (delay d : Nat) (rs : List Nat) (st : DState),
        countEv (Event.sleepPace d) (sendLoop u delay rs Terminal.error st).events
          = countEv (Event.sleepPace d) st.events)
    ∧ (∀ (beh : Nat → ImgBehavior) (delay : Nat) (u : String) (rest : List String)
        (st : DState), u ∈ st.memSet →
        send_images beh delay (u :: rest) st
          = send_images beh delay rest
              { st with events := st.events ++ [Event.skip u] }) := by
  refine ⟨?_, ?_, ?_⟩
  · intro u delay rs st
    exact sendLoop_success u delay rs st
  · intro u delay d rs st
    rw [sendLoop_error]
    simp [countEv_append, countEv, errorEvs, countEv_sleepPace_rlEvs]
  · intro beh delay u rest st h
    exact send_images_cons_mem h beh delay rest

/-- Witness for C3 at concrete inputs. -/
theorem success_order_c3_w :
    uA ∈ stA.memSet ∧
    send_images behS 5 [uA] stA
      = send_images behS 5 [] { stA with events := stA.events ++ [Event.skip uA] } :=
  ⟨by decide, success_order_c3.2.2 behS 5 uA [] stA (by decide)⟩

/-- C4: when the final attempt of a send loop fails with a non-rate-limit
error, the engine only logs the error — the file, the in-memory set and the
rest of the state are unchanged — and `send_images` moves on to the next
URL in the sequence, so no per-image error escapes the delivery loop. -/
theorem error_abandon_c4 :
    (∀ (u : String) (delay : Nat) (rs : List Nat) (st : DState),
        sendLoop u delay rs Terminal.error st =
          { st with
            events := st.events ++ (rlEvs u rs ++ [Event.attempt u, Event.logError u]) })
    ∧ (∀ (beh : Nat → ImgBehavior) (delay : Nat) (u : String) (rest : List String)
        (st : DState), u ∉ st.memSet →
        send_images beh delay (u :: rest) st
          = send_images beh delay rest
              (sendLoop u delay (beh st.k).retries (beh st.k).final
                { st with k := st.k + 1 })) := by
  refine ⟨?_, ?_⟩
  · intro u delay rs st
    exact sendLoop_error u delay rs st
  · intro beh delay u rest st h
    exact send_images_cons_notMem h beh delay rest

/-- Witness for C4 at concrete inputs. -/
theorem error_abandon_c4_w :
    uB ∉ stA.memSet ∧
    send_images behE 5 [uB] stA
      = send_images behE 5 []
          (sendLoop uB 5 (behE stA.k).retries (behE stA.k).final
            { stA with k := stA.k + 1 }) :=
  ⟨by decide, error_abandon_c4.2 behE 5 uB [] stA (by decide)⟩

/-- C7: the dedup store only grows — over any `send_images` run, every URL
in the in-memory set beforehand is still in it afterwards, and the backing
file is only appended to (the final file is the initial file plus a tail),
whatever mix of skips, successes, rate-limit retries and errors occurs. -/
theorem store_monotone_c7 :
    ∀ (beh : Nat → ImgBehavior) (delay : Nat) (images : List String) (st : DState),
      (∀ u, u ∈ st.memSet → u ∈ (send_images beh delay images st).memSet)
      ∧ ∃ tail, (send_images beh delay images st).file = st.file ++ tail :=
  fun beh delay images st =>
    ⟨fun _ hu => send_images_memSet_mono beh delay images st hu,
      send_images_file_mono beh delay images st⟩

/-- Witness for C7 at concrete inputs. -/
theorem store_monotone_c7_w :
    uA ∈ (send_images behE 5 [uA, uB] stA).memSet
    ∧ ∃ tail, (send_images behE 5 [uA, uB] stA).file = stA.file ++ tail :=
  ⟨(store_monotone_c7 behE 5 [uA, uB] stA).1 uA (by decide),
    (store_monotone_c7 behE 5 [uA, uB] stA).2⟩

/-! ## Per-image loop lemmas -/

lemma loopStep_retry (net : Nat → SendResult) (u : String) (delay : Nat) (s : LState)
    (hst : s.status = LoopStatus.running) {n : Nat}
    (hnet : net s.attempts = SendResult.retryAfter n) :
    loopStep net u delay s =
      { attempts := s.attempts + 1
        status := LoopStatus.running
        st := { s.st with
          events := s.st.events ++ [Event.attempt u, Event.sleepRetry n] } } := by
  unfold loopStep
  rw [hst, hnet]

lemma loopStep_all_retry_running (net : Nat → SendResult) (u : String) (delay : Nat)
    (hnet : ∀ j, ∃ n, net j = SendResult.retryAfter n) :
    ∀ (k : Nat) (s : LState), s.status = LoopStatus.running →
      ((loopStep net u delay)^[k] s).status = LoopStatus.running := by
  intro k
  induction k with
  | zero => intro s h; simpa using h
  | succ k ihk =>
    intro s h
    rw [Function.iterate_succ_apply]
    apply ihk
    obtain ⟨n, hn⟩ := hnet s.attempts
    rw [loopStep_retry net u delay s h hn]

lemma loopStep_terminal_cases (net : Nat → SendResult) (u : String) (delay : Nat)
    (s : LState) (hst : s.status = LoopStatus.running)
    (hterm : (loopStep net u delay s).status ≠ LoopStatus.running) :
    net s.attempts = SendResult.success ∨ net s.attempts = SendResult.otherError := by
  cases hnet : net s.attempts with
  | success => exact Or.inl rfl
  | otherError => exact Or.inr rfl
  | retryAfter n =>
    exact absurd (by rw [loopStep_retry net u delay s hst hnet]) hterm

/-- C2: on a rate-limit answer carrying a retry-after delay `n`, the loop
records the attempt, sleeps exactly `n`, and stays in the running state (so
the same image URL is retried next); under an oracle that always answers
with a rate limit the loop is still running after any number of steps — it
never abandons the image; and a running loop leaves the running state only
when the attempt's outcome is a success or a non-rate-limit error. -/
theorem rate_limit_retry_c2 :
    (∀ (net : Nat → SendResult) (u : String) (delay : Nat) (s : LState) (n : Nat),
        s.status = LoopStatus.running → net s.attempts = SendResult.retryAfter n →
        loopStep net u delay s =
          { attempts := s.attempts + 1
            status := LoopStatus.running
            st := { s.st with
              events := s.st.events ++ [Event.attempt u, Event.sleepRetry n] } })
    ∧ (∀ (net : Nat → SendResult) (u : String) (delay : Nat) (s : LState),
        s.status = LoopStatus.running →
        (∀ j, ∃ n, net j = SendResult.retryAfter n) →
        ∀ k, ((loopStep net u delay)^[k] s).status = LoopStatus.running)
    ∧ (∀ (net : Nat → SendResult) (u : String) (delay : Nat) (s : LState),
        s.status = LoopStatus.running →
        (loopStep net u delay s).status ≠ LoopStatus.running →
        net s.attempts = SendResult.success ∨ net s.attempts = SendResult.otherError) :=
  ⟨fun net u delay s _ hst hnet => loopStep_retry net u delay s hst hnet,
    fun net u delay s hst hnet k => loopStep_all_retry_running net u delay hnet k s hst,
    fun net u delay s hst hterm => loopStep_terminal_cases net u delay s hst hterm⟩

/-- Witness for C2 at concrete inputs. -/
theorem rate_limit_retry_c2_w :
    (ls0.status = LoopStatus.running ∧ netR ls0.attempts = SendResult.retryAfter 3
      ∧ loopStep netR uA 5 ls0 =
        { attempts := ls0.attempts + 1
          status := LoopStatus.running
          st := { ls0.st with
            events := ls0.st.events ++ [Event.attempt uA, Event.sleepRetry 3] } })
    ∧ ((loopStep netR uA 5)^[4] ls0).status = LoopStatus.running := by
  refine ⟨⟨rfl, rfl, ?_⟩, ?_⟩
  · exact rate_limit_retry_c2.1 netR uA 5 ls0 3 rfl rfl
  · exact rate_limit_retry_c2.2.1 netR uA 5 ls0 rfl (fun j => ⟨3, rfl⟩) 4

/-! ## Orchestration lemmas -/

/-- C8: if the bot token or the chat id is empty after configuration
loading, `run` stops at once with the fatal credential error — its trace is
empty (no logging, no feed fetch, no delivery attempt) and the store file
is untouched — and the process exits non-zero. -/
theorem missing_creds_c8 :
    ∀ (s : Settings) (w : RunWorld), s.bot_token = "" ∨ s.chat_id = "" →
      run s w = { trace := [], fatal := some credsErrMsg, finalFile := pubLines0 w }
      ∧ main_exit s w = 1 := by
  intro s w h
  have hr : run s w
      = { trace := [], fatal := some credsErrMsg, finalFile := pubLines0 w } := by
    unfold run
    rw [if_pos h]
  refine ⟨hr, ?_⟩
  unfold main_exit
  rw [hr]

/-- Witness for C8 at concrete inputs. -/
theorem missing_creds_c8_w :
    (settNoTok.bot_token = "" ∨ settNoTok.chat_id = "")
    ∧ run settNoTok worldNoFeeds
      = { trace := [], fatal := some credsErrMsg, finalFile := pubLines0 worldNoFeeds }
    ∧ main_exit settNoTok worldNoFeeds = 1 :=
  ⟨Or.inl rfl, missing_creds_c8 settNoTok worldNoFeeds (Or.inl rfl)⟩

/-- C10: with valid credentials and a missing feed-list file, `run` logs
the missing file and the empty feed list, performs no feed fetch and no
delivery (the trace holds log events only), leaves the store untouched, and
returns normally, so the process exits 0 — exactly as for an empty feed
list, which is not a fatal startup error. -/
theorem missing_feeds_c10 :
    ∀ (s : Settings) (w : RunWorld),
      s.bot_token ≠ "" → s.chat_id ≠ "" → w.feedsFileExists = false →
      run s w
        = { trace := [REvent.logStart, REvent.logFeedsMissing, REvent.logNoFeeds]
            fatal := none
            finalFile := pubLines0 w }
      ∧ main_exit s w = 0 := by
  intro s w ht hc hx
  have hcond : ¬ (s.bot_token = "" ∨ s.chat_id = "") := by
    rintro (h | h)
    exacts [ht h, hc h]
  have hr : run s w
      = { trace := [REvent.logStart, REvent.logFeedsMissing, REvent.logNoFeeds]
          fatal := none
          finalFile := pubLines0 w } := by
    unfold run
    rw [if_neg hcond, hx]
    simp [read_rss_feeds]
  refine ⟨hr, ?_⟩
  unfold main_exit
  rw [hr]

/-- Witness for C10 at concrete inputs. -/
theorem missing_feeds_c10_w :
    (settOk.bot_token ≠ "" ∧ settOk.chat_id ≠ ""
      ∧ worldNoFeeds.feedsFileExists = false)
    ∧ run settOk worldNoFeeds
      = { trace := [REvent.logStart, REvent.logFeedsMissing, REvent.logNoFeeds]
          fatal := none
          finalFile := pubLines0 worldNoFeeds }
    ∧ main_exit settOk worldNoFeeds = 0 :=
  ⟨⟨by decide, by decide, rfl⟩,
    missing_feeds_c10 settOk worldNoFeeds (by decide) (by decide) rfl⟩

/-- C9: round-trip of the dedup store — for a URL that is non-empty,
newline-free and invariant under stripping, appending it to the backing
file and loading yields exactly the previously loaded set united with that
URL (membership-wise), and loading a non-existent file yields the empty
set. -/
theorem dedup_roundtrip_c9 :
    (∀ (u : String) (lines : List String),
        u ≠ "" → u.data.contains '\n' = false → trimStr u = u →
        ∀ x : String,
          x ∈ load_published_images true (append_published_image lines u)
            ↔ x ∈ load_published_images true lines ∨ x = u)
    ∧ (∀ lines : List String, load_published_images false lines = []) := by
  refine ⟨?_, fun lines => rfl⟩
  intro u lines hne _hnl htrim x
  simp [load_published_images, append_published_image, List.filter_append, htrim, hne]

/-- Witness for C9 at concrete inputs. -/
theorem dedup_roundtrip_c9_w :
    (uA ≠ "" ∧ uA.data.contains '\n' = false ∧ trimStr uA = uA)
    ∧ (uA ∈ load_published_images true (append_published_image [uB] uA)
        ↔ uA ∈ load_published_images true [uB] ∨ uA = uA)
    ∧ load_published_images false [uA] = [] := by
  refine ⟨⟨by decide, by decide, by decide⟩, ?_, ?_⟩
  · exact dedup_roundtrip_c9.1 uA [uB] (by decide) (by decide) (by decide) uA
  · exact dedup_roundtrip_c9.2 [uA]
